import Mathlib

/-!
Verification development for the frappe-appointment meeting form.

The repository holds three near-duplicate revisions of one React component,
a "Meeting Schedule" form:

* `src/frontend/src/pages/appointment/components/meetingForm.tsx`
  (namespace `MeetingFormTsx` below),
* `src/unnamed/part_000` (namespace `Part000`),
* `src/unnamed/part_001` (namespace `Part001`).

The component state (form fields, participant list, dropdown flags) is
embedded as explicit record-passing state; every event handler of the
source becomes a pure Lean function on that state.  JavaScript string
primitives used by the source (`trim`, `includes("@")`, array `includes`,
`filter`, `join`) are embedded as executable Lean definitions below.
-/

namespace FrappeAppointment

/-- Embeds JavaScript `String.prototype.trim`: drop whitespace from both
ends of the string. -/
def jsTrim (s : String) : String :=
  ⟨((s.data.dropWhile Char.isWhitespace).reverse.dropWhile Char.isWhitespace).reverse⟩

/-- Embeds the source's `email.includes("@")` test (membership of the single
character `@` in the string). -/
def jsHasAt (s : String) : Bool :=
  s.data.contains '@'

/-- Zero-pad a numeral to two digits, as both `date-fns` `"yyyy-MM-dd"` and
the `en-CA` `Intl.DateTimeFormat` pattern do for month and day. -/
def pad2 (n : Nat) : String :=
  if n < 10 then "0" ++ toString n else toString n

/-- A calendar date as carried by `selectedDate` in the app context. -/
structure SimpleDate where
  year : Nat
  month : Nat
  day : Nat
deriving DecidableEq

/-- Embeds the date serialization used by the submit handlers:
`format(selectedDate, "yyyy-MM-dd")` in meetingForm.tsx and
`Intl.DateTimeFormat("en-CA", numeric fields)` in part_000/part_001 (the
`en-CA` locale renders numeric dates as zero-padded `yyyy-MM-dd`). -/
def formatYMD (d : SimpleDate) : String :=
  toString d.year ++ "-" ++ pad2 d.month ++ "-" ++ pad2 d.day

/-- A time slot from the app context (`selectedSlot`). -/
structure Slot where
  start_time : String
  end_time : String
deriving DecidableEq

/-- The ambient submission context (`selectedDate`, `selectedSlot`,
`durationId`, and the timezone).  `tzOffset` carries the numeric result of
`getTimeZoneOffsetFromTimeZoneString(timeZone)`; that helper lives in
`@/lib/utils`, outside the repository sources, so the offset it computes is
taken here as an input, per the spec's direction to pass ambient context
explicitly into `submit`. -/
structure SubmitContext where
  durationId : String
  selectedDate : SimpleDate
  selectedSlot : Slot
  tzOffset : Int
deriving DecidableEq

/-- A directory/local candidate user: `{ id, name, email }` in
meetingForm.tsx, where `email` may be `null`. -/
structure User where
  id : String
  name : String
  email : Option String
deriving DecidableEq

/-- Embeds `crypto.randomUUID()`: the source only needs a fresh identifier,
so identifiers are drawn from a counter threaded through the state. -/
def freshUUID (n : Nat) : String :=
  "uuid-" ++ toString n

/-- A BookingService error object; `msg` is the human-readable message that
`parseFrappeErrorMsg` can extract from it, `none` when no message is
extractable. -/
structure ServiceError where
  msg : Option String
deriving DecidableEq

/-- Modelled from the spec: `parseFrappeErrorMsg` (from `@/lib/utils`, not
under `src/`) "extracts a human-readable message from the service error";
it yields the message when one is extractable and nothing otherwise. -/
def parseFrappeErrorMsg (e : ServiceError) : Option String :=
  e.msg

/-- Outcome of settling the `bookMeeting` promise: the service resolves
with opaque data or rejects with an error object. -/
inductive BookResponse where
  | ok (data : String)
  | err (e : ServiceError)
deriving DecidableEq

/-- User-visible effect produced after the BookingService call settles:
either the success callback fires or a toast message is shown. -/
inductive Effect where
  | success (data : String)
  | toast (msg : String)
deriving DecidableEq

/-- Result of `form.handleSubmit(onSubmit)`: when the zod resolver rejects
the values, inline field errors are surfaced and `onSubmit` never runs
(`invalid`); otherwise `onSubmit` runs and produces `a`. -/
inductive FormSubmit (α : Type) where
  | invalid
  | submitted (a : α)
deriving DecidableEq

/-! ## The meetingForm.tsx revision -/

namespace MeetingFormTsx

open FrappeAppointment

/-- Component state of the meetingForm.tsx revision: the `useState` cells
(`users`, `chairpersonId`, the dropdown flags, `participantInput`) together
with the react-hook-form field values (`chairperson`, `host`,
`participants`).  `freshCounter` feeds `freshUUID` (see its docstring). -/
structure State where
  users : List User
  freshCounter : Nat
  chairpersonId : String
  chairpersonOpen : Bool
  participantsOpen : Bool
  participantsDropdownOpen : Bool
  participantInput : String
  chairperson : String
  host : String
  participants : List String
deriving DecidableEq

/-- Initial state: empty defaults, as in the component's `useState` and
`useForm` initializers. -/
def init : State :=
  { users := []
    freshCounter := 0
    chairpersonId := ""
    chairpersonOpen := false
    participantsOpen := false
    participantsDropdownOpen := false
    participantInput := ""
    chairperson := ""
    host := ""
    participants := [] }

/-- Embeds the `find` predicate of `addUserIfMissing`:
`u.name === name || (email && u.email === email)` — note JavaScript
truthiness makes the email clause vacuous for `null` and for `""`. -/
def userMatches (name : String) (email : Option String) (u : User) : Bool :=
  u.name == name ||
    (match email with
     | some e => (e != "") && (u.email == some e)
     | none => false)

/-- Embeds `addUserIfMissing(name, email)`: return the existing matching
user, or create a fresh one (with a `crypto.randomUUID()` id) and append it
to `users`. -/
def addUserIfMissing (name : String) (email : Option String) (s : State) :
    User × State :=
  match s.users.find? (userMatches name email) with
  | some u => (u, s)
  | none =>
      let newUser : User := ⟨freshUUID s.freshCounter, name, email⟩
      (newUser, { s with
                    users := s.users ++ [newUser]
                    freshCounter := s.freshCounter + 1 })

/-- Embeds `syncChairperson` (the chairperson input's `onBlur`): trim the
name; if empty return; otherwise resolve it through `addUserIfMissing`, set
`chairpersonId` to the resolved id and close the dropdown. -/
def syncChairperson (s : State) : State :=
  if jsTrim s.chairperson = "" then s
  else
    { (addUserIfMissing (jsTrim s.chairperson) none s).2 with
        chairpersonId := (addUserIfMissing (jsTrim s.chairperson) none s).1.id
        chairpersonOpen := false }

/-- Embeds `addParticipant`: trim the input; bail out when it is empty or
lacks `@` or is already present; otherwise append it to `participants`,
merge it into `users` via `addUserIfMissing`, and clear the input buffer. -/
def addParticipant (s : State) : State :=
  if jsTrim s.participantInput = "" ∨ jsHasAt (jsTrim s.participantInput) = false then s
  else if jsTrim s.participantInput ∈ s.participants then s
  else
    { (addUserIfMissing (jsTrim s.participantInput)
        (some (jsTrim s.participantInput))
        { s with participants := s.participants ++ [jsTrim s.participantInput] }).2 with
        participantInput := "" }

/-- Embeds `removeParticipant(email)`: keep every entry different from
`email`. -/
def removeParticipant (email : String) (s : State) : State :=
  { s with participants := s.participants.filter (fun p => p != email) }

/-- Embeds the chairperson input's `onChange` handler: forward the text to
the form field and clear `chairpersonId`. -/
def chairOnChange (text : String) (s : State) : State :=
  { s with chairperson := text, chairpersonId := "" }

/-- Embeds the chairperson dropdown row's `onMouseDown` handler: set the
form's `chairperson` to the candidate's name, set `chairpersonId` to its
id, and close the dropdown. -/
def pickChairHandler (u : User) (s : State) : State :=
  { s with chairperson := u.name, chairpersonId := u.id, chairpersonOpen := false }

/-- Embeds the participants dropdown row's `onMouseDown` handler for a
candidate email `e`: append `e` unless already present, then close the
participants dropdown. -/
def pickParticipantHandler (e : String) (s : State) : State :=
  { s with
      participants :=
        if e ∈ s.participants then s.participants else s.participants ++ [e]
      participantsDropdownOpen := false }

/-- Embeds the host input's `onChange` (react-hook-form `field.onChange`):
store the text in the `host` field. -/
def hostOnChange (text : String) (s : State) : State :=
  { s with host := text }

/-- Embeds the host input's `onBlur` handler:
`addUserIfMissing(e.target.value, e.target.value)` on the current host
text. -/
def hostOnBlur (s : State) : State :=
  (addUserIfMissing s.host (some s.host) s).2

/-- User-interface events of the meetingForm.tsx revision that touch the
candidate list or the participant list.  Dropdown picks carry the candidate
row that was clicked; the step function below only applies them when that
row is actually rendered (dropdown open, candidate present in `users`, and
— for the participants dropdown — candidate email truthy, mirroring
`users.filter((u) => u.email)`). -/
inductive Op where
  | setParticipantInput (text : String)
  | pressEnter
  | pickParticipant (u : User)
  | toggleParticipantsSection
  | toggleParticipantsDropdown
  | setHost (text : String)
  | blurHost
  | setChair (text : String)
  | focusChair
  | pickChair (u : User)
  | blurChair
  | removePart (email : String)
deriving DecidableEq

/-- One step of the event-driven component: dispatch an event to the
handler the source wires it to, guarded by the rendering conditions under
which the event can fire at all. -/
def applyOp (s : State) : Op → State
  | .setParticipantInput t => { s with participantInput := t }
  | .pressEnter => addParticipant s
  | .pickParticipant u =>
      if s.participantsOpen ∧ s.participantsDropdownOpen ∧ u ∈ s.users then
        match u.email with
        | some e => if e = "" then s else pickParticipantHandler e s
        | none => s
      else s
  | .toggleParticipantsSection => { s with participantsOpen := !s.participantsOpen }
  | .toggleParticipantsDropdown =>
      { s with participantsDropdownOpen := !s.participantsDropdownOpen }
  | .setHost t => hostOnChange t s
  | .blurHost => hostOnBlur s
  | .setChair t => chairOnChange t s
  | .focusChair => { s with chairpersonOpen := true }
  | .pickChair u =>
      if s.chairpersonOpen ∧ u ∈ s.users then pickChairHandler u s else s
  | .blurChair => syncChairperson s
  | .removePart e => removeParticipant e s

/-- Run a sequence of events from the initial state. -/
def runOps (ops : List Op) : State :=
  ops.foldl applyOp init

/-- The submission payload built by `onSubmit` in meetingForm.tsx.
`extra` carries the spread-in passthrough query parameters (spread first in
the source, so the named fields always win on key collision). -/
structure Payload where
  extra : List (String × String)
  duration_id : String
  date : String
  start_time : String
  end_time : String
  user_timezone_offset : String
  chairperson_name : String
  chairperson_id : String
  host_email : String
  user_name : String
  user_email : String
  participants : String
deriving DecidableEq

/-- Embeds the payload object literal of `onSubmit` (meetingForm.tsx):
note the participant list is serialized with `join(",")` — a bare comma. -/
def mkPayload (ctx : SubmitContext) (extra : List (String × String))
    (s : State) : Payload :=
  { extra := extra
    duration_id := ctx.durationId
    date := formatYMD ctx.selectedDate
    start_time := ctx.selectedSlot.start_time
    end_time := ctx.selectedSlot.end_time
    user_timezone_offset := toString ctx.tzOffset
    chairperson_name := s.chairperson
    chairperson_id := s.chairpersonId
    host_email := s.host
    user_name := s.chairperson
    user_email := s.host
    participants := String.intercalate "," s.participants }

/-- Outcome of `onSubmit` once it runs: either the `chairpersonId` guard
trips (an error toast is shown, no request is issued) or `bookMeeting` is
called with the built payload. -/
inductive SubmitOutcome where
  | noCall (toastMsg : String)
  | call (payload : Payload)
deriving DecidableEq

/-- Embeds `onSubmit` (meetingForm.tsx): if `chairpersonId` is empty, toast
an error and return; otherwise build the payload and call `bookMeeting`.
Neither branch invokes any state setter, so the state component of the
result is the incoming state. -/
def onSubmit (ctx : SubmitContext) (extra : List (String × String))
    (s : State) : State × SubmitOutcome :=
  if s.chairpersonId = "" then
    (s, .noCall "Please select a valid chairperson")
  else
    (s, .call (mkPayload ctx extra s))

/-- Embeds the zod resolver for `meetingFormSchema` (meetingForm.tsx):
`chairperson` non-empty (`min(1)`), `host` a valid email, every participant
a valid email.  Email-format checking is zod's `z.string().email()`, an
external library predicate, so it is a parameter `emailOk`. -/
def schemaCheck (emailOk : String → Bool) (s : State) : Bool :=
  decide (1 ≤ s.chairperson.length) && emailOk s.host && s.participants.all emailOk

/-- Embeds `form.handleSubmit(onSubmit)`: run the resolver; on failure
surface inline errors and stop, otherwise run `onSubmit`. -/
def submitPipeline (emailOk : String → Bool) (ctx : SubmitContext)
    (extra : List (String × String)) (s : State) :
    FormSubmit (State × SubmitOutcome) :=
  if schemaCheck emailOk s then .submitted (onSubmit ctx extra s) else .invalid

/-- Whether a submit attempt actually issued a BookingService request. -/
def callsBooking : FormSubmit (State × SubmitOutcome) → Bool
  | .submitted (_, .call _) => true
  | _ => false

/-- Embeds the settling of the `bookMeeting` promise in meetingForm.tsx:
on resolution, `onSuccess(res)` fires; on rejection the catch block runs
`toast.error("Unable to schedule meeting")`.  Neither branch invokes any
state setter, so the form state passes through unchanged. -/
def settle (s : State) : BookResponse → State × Effect
  | .ok d => (s, .success d)
  | .err _ => (s, .toast "Unable to schedule meeting")

end MeetingFormTsx

/-! ## The part_000 revision -/

namespace Part000

open FrappeAppointment

/-- A `{ id, name }` chairperson entry as kept in `existingChairpersons`. -/
structure ChairEntry where
  id : String
  name : String
deriving DecidableEq

/-- Component state of the part_000 revision: the form fields
(`chairperson`, `chairperson_id`, `host`, `participants`), the local
`chairpersonId` cell (`useState<string | null>`), the
`existingChairpersons` list, the chairperson and participants dropdown
flags, and the participant input buffer. -/
structure State where
  chairperson : String
  chairperson_id : String
  host : String
  participants : List String
  chairpersonId : Option String
  existingChairpersons : List ChairEntry
  isChairpersonDropdownOpen : Bool
  isParticipantsDropdownOpen : Bool
  participantInput : String
deriving DecidableEq

/-- Initial state with the component's empty defaults.  The on-mount
`useEffect` reads back the default `chairperson`/`chairperson_id` values
(`""`, falsy), so it leaves the state unchanged. -/
def init : State :=
  { chairperson := ""
    chairperson_id := ""
    host := ""
    participants := []
    chairpersonId := none
    existingChairpersons := []
    isChairpersonDropdownOpen := false
    isParticipantsDropdownOpen := false
    participantInput := "" }

/-- Embeds `handleSelectChairperson(user)` (part_000): set the form's
`chairperson` and `chairperson_id`, store the id in the local state, append
the entry to `existingChairpersons` when not already present, and close the
dropdown. -/
def handleSelectChairperson (u : ChairEntry) (s : State) : State :=
  { s with
      chairperson := u.name
      chairperson_id := u.id
      chairpersonId := some u.id
      existingChairpersons :=
        if s.existingChairpersons.any (fun p => p.id == u.id) then
          s.existingChairpersons
        else s.existingChairpersons ++ [u]
      isChairpersonDropdownOpen := false }

/-- Embeds `addParticipant` (part_000): trim the input; when non-empty,
containing `@`, and not already present, append it and clear the input. -/
def addParticipant (s : State) : State :=
  if jsTrim s.participantInput ≠ "" ∧ jsHasAt (jsTrim s.participantInput) = true then
    if jsTrim s.participantInput ∈ s.participants then s
    else
      { s with
          participants := s.participants ++ [jsTrim s.participantInput]
          participantInput := "" }
  else s

/-- Embeds `removeParticipant(email)` (part_000). -/
def removeParticipant (email : String) (s : State) : State :=
  { s with participants := s.participants.filter (fun p => p != email) }

/-- Embeds the participants dropdown row's `onClick` (part_000) for a
directory candidate email `e`: append `e` unless already present (the
handler carries an explicit `includes` guard; it does not close the
dropdown). -/
def pickParticipantHandler (e : String) (s : State) : State :=
  { s with
      participants :=
        if e ∈ s.participants then s.participants else s.participants ++ [e] }

/-- User-interface events of the part_000 revision that touch the
participant list.  The dropdown pick carries the candidate email that was
clicked; the step function applies it only when the row is rendered (the
participants block and its dropdown share the `isParticipantsDropdownOpen`
flag, and the row's email must come from the fetched directory list,
passed as the `dir` parameter of the machine). -/
inductive Op where
  | setParticipantInput (text : String)
  | pressEnter
  | blurParticipantInput
  | toggleParticipants
  | pickParticipant (e : String)
  | addNewParticipantRow
  | removePart (email : String)
deriving DecidableEq

/-- One step of the part_000 event machine, parameterized by the directory
candidate emails `dir` (the `user.email` values of `userDocs`): input
keydown on Enter/comma and blur both run `addParticipant`; the dropdown
row inserts via `pickParticipantHandler`; the "Add New Participant" row
closes the chairperson dropdown and runs `addParticipant`. -/
def applyOp (dir : List String) (s : State) : Op → State
  | .setParticipantInput t => { s with participantInput := t }
  | .pressEnter => addParticipant s
  | .blurParticipantInput => addParticipant s
  | .toggleParticipants =>
      { s with isParticipantsDropdownOpen := !s.isParticipantsDropdownOpen }
  | .pickParticipant e =>
      if s.isParticipantsDropdownOpen ∧ e ∈ dir then pickParticipantHandler e s
      else s
  | .addNewParticipantRow =>
      if s.isParticipantsDropdownOpen then
        addParticipant { s with isChairpersonDropdownOpen := false }
      else s
  | .removePart e => removeParticipant e s

/-- Run a sequence of part_000 events from the initial state, with the
directory offering the candidate emails `dir`. -/
def runOps (dir : List String) (ops : List Op) : State :=
  ops.foldl (applyOp dir) init

/-- Embeds the host dropdown row's `onClick` (part_000): the host field is
read-only and is set through `field.onChange(user.email)`. -/
def selectHost (email : String) (s : State) : State :=
  { s with host := email }

/-- Embeds typing in the chairperson input (part_000): the input is wired
with `{...field}` only, so the handler updates the `chairperson` field and
nothing else. -/
def chairOnChange (text : String) (s : State) : State :=
  { s with chairperson := text }

/-- The submission payload built by `onSubmit` in part_000;
`chairperson_id` carries the local `useState<string | null>` value. -/
structure Payload where
  extra : List (String × String)
  duration_id : String
  date : String
  user_timezone_offset : String
  start_time : String
  end_time : String
  chairperson_name : String
  chairperson_id : Option String
  host_email : String
  user_name : String
  user_email : String
  participants : String
deriving DecidableEq

/-- Embeds the `meetingData` object literal of `onSubmit` (part_000): note
the participant list is serialized with `join(", ")` — comma and space. -/
def mkMeetingData (ctx : SubmitContext) (extra : List (String × String))
    (s : State) : Payload :=
  { extra := extra
    duration_id := ctx.durationId
    date := formatYMD ctx.selectedDate
    user_timezone_offset := toString ctx.tzOffset
    start_time := ctx.selectedSlot.start_time
    end_time := ctx.selectedSlot.end_time
    chairperson_name := s.chairperson
    chairperson_id := s.chairpersonId
    host_email := s.host
    user_name := s.chairperson
    user_email := s.host
    participants := String.intercalate ", " s.participants }

/-- Embeds the settling of the `bookMeeting` promise in part_000: the
`.then` branch forwards the data to `onSuccess`; the `.catch` branch shows
`toast(parseFrappeErrorMsg(err) || "Something went wrong")` — JavaScript
`||` falls through both when no message is extractable and when the
extracted message is the empty string.  Neither branch invokes any state
setter, so the form state passes through unchanged. -/
def settle (s : State) : BookResponse → State × Effect
  | .ok d => (s, .success d)
  | .err e =>
      (s, .toast
        (match parseFrappeErrorMsg e with
         | some m => if m = "" then "Something went wrong" else m
         | none => "Something went wrong"))

end Part000

/-! ## The part_001 revision -/

namespace Part001

open FrappeAppointment

/-- Component state of the part_001 revision: form fields, the local
`chairpersonId` cell, the single shared dropdown flag, the participants
section flag, and the participant input buffer.  In this revision
`userDocs` is the hard-coded empty array, so the dropdowns never render a
candidate row. -/
structure State where
  chairperson : String
  chairperson_id : String
  host : String
  participants : List String
  chairpersonId : Option String
  isDropdownOpen : Bool
  isParticipantsOpen : Bool
  participantInput : String
deriving DecidableEq

/-- Initial state with the component's empty defaults. -/
def init : State :=
  { chairperson := ""
    chairperson_id := ""
    host := ""
    participants := []
    chairpersonId := none
    isDropdownOpen := false
    isParticipantsOpen := false
    participantInput := "" }

/-- Embeds `handleSelectChairperson(user)` (part_001): set the form's
`chairperson` and `chairperson_id`, store the id in the local state, and
close the dropdown. -/
def handleSelectChairperson (u : User) (s : State) : State :=
  { s with
      chairperson := u.name
      chairperson_id := u.id
      chairpersonId := some u.id
      isDropdownOpen := false }

/-- Embeds typing in the chairperson input (part_001): the input is wired
with `{...field}` only, so the handler updates the `chairperson` field and
nothing else — in particular it touches neither `chairperson_id` nor the
local `chairpersonId`. -/
def chairOnChange (text : String) (s : State) : State :=
  { s with chairperson := text }

/-- Embeds `addParticipant` (part_001), identical to part_000's. -/
def addParticipant (s : State) : State :=
  if jsTrim s.participantInput ≠ "" ∧ jsHasAt (jsTrim s.participantInput) = true then
    if jsTrim s.participantInput ∈ s.participants then s
    else
      { s with
          participants := s.participants ++ [jsTrim s.participantInput]
          participantInput := "" }
  else s

/-- Embeds `removeParticipant(email)` (part_001). -/
def removeParticipant (email : String) (s : State) : State :=
  { s with participants := s.participants.filter (fun p => p != email) }

/-- Embeds part_001's `userDocs`: the source hard-codes it to the empty
array (`const userDocs: any[] = []`), so the dropdowns never render a
candidate row in this revision. -/
def userDocs : List User :=
  []

/-- Embeds the participants dropdown row's `onClick` (part_001) for a
candidate email `e`: unlike the other two revisions, this handler appends
`e` with no `includes` guard (and does not close the dropdown). -/
def pickParticipantHandler (e : String) (s : State) : State :=
  { s with participants := s.participants ++ [e] }

/-- User-interface events of the part_001 revision that touch the
participant list.  The dropdown pick carries the candidate row clicked;
the step function applies it only when the row is rendered: the
participants block requires `isParticipantsOpen`, the dropdown requires
`isDropdownOpen`, and the rows come from `userDocs` — the hard-coded empty
array. -/
inductive Op where
  | setParticipantInput (text : String)
  | pressEnter
  | blurParticipantInput
  | toggleParticipantsSection
  | toggleDropdown
  | pickParticipant (u : User)
  | addNewParticipantRow
  | removePart (email : String)
deriving DecidableEq

/-- One step of the part_001 event machine: input keydown on Enter/comma
and blur both run `addParticipant`; the dropdown row inserts via the
unguarded `pickParticipantHandler` (but only rows of the empty `userDocs`
render, so the branch is unreachable); the "Add New Participant" row
closes the dropdown and runs `addParticipant`. -/
def applyOp (s : State) : Op → State
  | .setParticipantInput t => { s with participantInput := t }
  | .pressEnter => addParticipant s
  | .blurParticipantInput => addParticipant s
  | .toggleParticipantsSection =>
      { s with isParticipantsOpen := !s.isParticipantsOpen }
  | .toggleDropdown => { s with isDropdownOpen := !s.isDropdownOpen }
  | .pickParticipant u =>
      if s.isParticipantsOpen ∧ s.isDropdownOpen ∧ u ∈ userDocs then
        match u.email with
        | some e => pickParticipantHandler e s
        | none => s
      else s
  | .addNewParticipantRow =>
      if s.isParticipantsOpen ∧ s.isDropdownOpen then
        addParticipant { s with isDropdownOpen := false }
      else s
  | .removePart e => removeParticipant e s

/-- Run a sequence of part_001 events from the initial state. -/
def runOps (ops : List Op) : State :=
  ops.foldl applyOp init

/-- Embeds the settling of the `bookMeeting` promise in part_001,
identical to part_000's: `.then` forwards to `onSuccess`; `.catch` shows
`toast(parseFrappeErrorMsg(err) || "Something went wrong")`, where the
JavaScript `||` falls through both for no extractable message and for an
extracted empty string.  Neither branch invokes any state setter, so the
form state passes through unchanged. -/
def settle (s : State) : BookResponse → State × Effect
  | .ok d => (s, .success d)
  | .err e =>
      (s, .toast
        (match parseFrappeErrorMsg e with
         | some m => if m = "" then "Something went wrong" else m
         | none => "Something went wrong"))

/-- The submission payload built by `onSubmit` in part_001: as part_000's
but without the `user_name`/`user_email` fields. -/
structure Payload where
  extra : List (String × String)
  duration_id : String
  date : String
  user_timezone_offset : String
  start_time : String
  end_time : String
  chairperson_name : String
  chairperson_id : Option String
  host_email : String
  participants : String
deriving DecidableEq

/-- Embeds the `meetingData` object literal of `onSubmit` (part_001): the
participant list is serialized with `join(", ")`. -/
def mkMeetingData (ctx : SubmitContext) (extra : List (String × String))
    (s : State) : Payload :=
  { extra := extra
    duration_id := ctx.durationId
    date := formatYMD ctx.selectedDate
    user_timezone_offset := toString ctx.tzOffset
    start_time := ctx.selectedSlot.start_time
    end_time := ctx.selectedSlot.end_time
    chairperson_name := s.chairperson
    chairperson_id := s.chairpersonId
    host_email := s.host
    participants := String.intercalate ", " s.participants }

/-- Embeds the zod resolver for `meetingFormSchema` (part_001 and
part_000): `chairperson` of length at least 2, `chairperson_id` optional
(no constraint), `host` a valid email, every participant a valid email.
Email-format checking is zod's `z.string().email()`, an external library
predicate, so it is a parameter `emailOk`. -/
def schemaCheck (emailOk : String → Bool) (s : State) : Bool :=
  decide (2 ≤ s.chairperson.length) && emailOk s.host && s.participants.all emailOk

/-- Embeds `form.handleSubmit(onSubmit)` for part_001: on resolver failure
inline errors are surfaced and `onSubmit` never runs; on success `onSubmit`
unconditionally calls `bookMeeting` with the built payload. -/
def submitPipeline (emailOk : String → Bool) (ctx : SubmitContext)
    (extra : List (String × String)) (s : State) : FormSubmit Payload :=
  if schemaCheck emailOk s then .submitted (mkMeetingData ctx extra s)
  else .invalid

/-- Whether a submit attempt actually issued a BookingService request:
in part_001 every completed `onSubmit` calls `bookMeeting`. -/
def callsBooking : FormSubmit Payload → Bool
  | .submitted _ => true
  | .invalid => false

end Part001

/-! ## Loading / in-flight call model

Embeds the submit affordance of all three revisions
(`<Button type="submit" disabled={loading}>`) together with the contract of
`useFrappePostCall`'s `loading` flag (true exactly while the issued call is
outstanding — the SDK is external to the repository, so this part is
modelled from the spec) and the browser rule that a disabled control
dispatches no activation events. -/

namespace AsyncModel

/-- Abstract submission-side state: the SDK's `loading` flag and the number
of outstanding BookingService calls. -/
structure AsyncState where
  loading : Bool
  inFlight : Nat
deriving DecidableEq

/-- Submission-side events: a click on the submit control (carrying whether
the submit pipeline would reach `bookMeeting`, i.e. validation and guards
pass) and the settling of an outstanding call. -/
inductive Ev where
  | submitClick (reaches : Bool)
  | settleCall
deriving DecidableEq

/-- Both revisions render the submit button with `disabled={loading}`, so a
click while `loading` is ignored; otherwise the pipeline may start one call
and `loading` becomes true until that call settles. -/
def stepEv (s : AsyncState) : Ev → AsyncState
  | .submitClick reaches =>
      if s.loading then s
      else if reaches then { loading := true, inFlight := s.inFlight + 1 }
      else s
  | .settleCall =>
      if s.inFlight = 0 then s
      else { loading := false, inFlight := s.inFlight - 1 }

/-- Initial submission-side state: not loading, no call outstanding. -/
def initAsync : AsyncState :=
  { loading := false, inFlight := 0 }

/-- Run a sequence of submission-side events from the initial state. -/
def runEvents (evs : List Ev) : AsyncState :=
  evs.foldl stepEv initAsync

end AsyncModel

/-! ## Scenario and analysis definitions -/

/-- The spec's §8 scenario context: date 2024-06-01, slot 09:00–09:30,
timezone offset -300. -/
def ctx1 : SubmitContext :=
  { durationId := "dur-1"
    selectedDate := ⟨2024, 6, 1⟩
    selectedSlot := ⟨"09:00", "09:30"⟩
    tzOffset := -300 }

/-- The spec's §8 scenario form state reached in the part_000 revision:
chairperson "Jane Doe" picked from the directory (id `u1`), host email
selected as `jane@co.com`, then participants `bob@co.com` and `sam@co.com`
entered through `addParticipant`. -/
def part000Scenario : Part000.State :=
  Part000.addParticipant
    { (Part000.addParticipant
        { (Part000.selectHost "jane@co.com"
            (Part000.handleSelectChairperson ⟨"u1", "Jane Doe"⟩ Part000.init)) with
            participantInput := "bob@co.com" }) with
        participantInput := "sam@co.com" }

/-- The spec's §8 scenario form state reached in the meetingForm.tsx
revision: the directory candidate `u1`/"Jane Doe" is picked from the
chairperson dropdown, the host email is typed, then the two participants
are entered through `addParticipant`. -/
def tsxScenario : MeetingFormTsx.State :=
  MeetingFormTsx.addParticipant
    { (MeetingFormTsx.addParticipant
        { (MeetingFormTsx.hostOnChange "jane@co.com"
            (MeetingFormTsx.pickChairHandler ⟨"u1", "Jane Doe", some "jane@co.com"⟩
              { MeetingFormTsx.init with
                  users := [⟨"u1", "Jane Doe", some "jane@co.com"⟩] })) with
            participantInput := "bob@co.com" }) with
        participantInput := "sam@co.com" }

namespace MeetingFormTsx

/-- Analysis-side condition for the amended participants invariant: the
only event that can introduce a candidate whose email lacks `@` is the
host input's blur (the source calls `addUserIfMissing(value, value)` there
without validating the text), so an event is acceptable when it is not a
host blur, or the host text currently contains `@`. -/
def okOp (s : State) : Op → Bool
  | .blurHost => jsHasAt s.host
  | _ => true

/-- Analysis-side condition over a whole event sequence: every event is
acceptable (see `okOp`) in the state at which it fires. -/
def allOk (s : State) : List Op → Bool
  | [] => true
  | op :: ops => okOp s op && allOk (applyOp s op) ops

/-- The participants/users email invariant for the meetingForm.tsx
revision: every participant entry contains `@`, and every candidate's
non-null email contains `@` (candidate emails are what the participants
dropdown inserts without further validation). -/
def emailsOk (s : State) : Prop :=
  (∀ e ∈ s.participants, jsHasAt e = true) ∧
  (∀ u ∈ s.users, ∀ e, u.email = some e → jsHasAt e = true)

/-- The event trace falsifying the unconditional participants invariant:
blur the host field holding the non-email text "foo" (creating a local
candidate whose email is "foo"), then pick that candidate from the
participants dropdown. -/
def badTrace : List Op :=
  [.setHost "foo", .blurHost, .toggleParticipantsSection,
   .toggleParticipantsDropdown, .pickParticipant ⟨"uuid-0", "foo", some "foo"⟩]

end MeetingFormTsx

namespace AsyncModel

/-- The loading-flag invariant: the number of outstanding BookingService
calls is 1 exactly while `loading` holds, 0 otherwise. -/
def goodAsync (s : AsyncState) : Prop :=
  s.inFlight = if s.loading then 1 else 0

end AsyncModel

/-! ## Helper lemmas -/

/-- A string containing `@` is not the empty string. -/
theorem hasAt_true_ne_empty (s : String) (h : jsHasAt s = true) : s ≠ "" := by
  intro he
  subst he
  exact absurd h (by decide)

/-- A list stays duplicate-free when an element not already present is
appended. -/
theorem nodup_append_single {l : List String} {a : String}
    (h : l.Nodup) (ha : a ∉ l) : (l ++ [a]).Nodup := by
  simp [List.nodup_append, h, ha]

/-- Filtering away `e` leaves a list that does not contain `e`. -/
theorem not_mem_filter_ne (l : List String) (e : String) :
    e ∉ l.filter (fun p => p != e) := by
  intro h
  simp [List.mem_filter] at h

/-- Filtering away an absent element is the identity. -/
theorem filter_ne_of_not_mem (l : List String) (e : String) (h : e ∉ l) :
    l.filter (fun p => p != e) = l := by
  apply List.filter_eq_self.mpr
  intro a ha
  simp only [bne_iff_ne, ne_eq]
  intro heq
  exact h (heq ▸ ha)

namespace MeetingFormTsx

/-- `addUserIfMissing` never touches the participant list. -/
theorem addUserIfMissing_participants (n : String) (em : Option String)
    (s : State) : ((addUserIfMissing n em s).2).participants = s.participants := by
  unfold addUserIfMissing
  split <;> rfl

/-- `addUserIfMissing` either keeps `users` or appends exactly the freshly
created candidate. -/
theorem addUserIfMissing_users_cases (n : String) (em : Option String)
    (s : State) :
    ((addUserIfMissing n em s).2).users = s.users ∨
    ((addUserIfMissing n em s).2).users
      = s.users ++ [⟨freshUUID s.freshCounter, n, em⟩] := by
  unfold addUserIfMissing
  split
  · exact Or.inl rfl
  · exact Or.inr rfl

/-- When the trimmed input is a not-yet-present `@`-containing string `e`,
`addParticipant` appends exactly `e` and clears the input buffer. -/
theorem addParticipant_appends (s : State) (e : String)
    (he : jsTrim s.participantInput = e) (h1 : jsHasAt e = true)
    (h2 : e ∉ s.participants) :
    (addParticipant s).participants = s.participants ++ [e]
    ∧ (addParticipant s).participantInput = "" := by
  unfold addParticipant
  rw [he, if_neg, if_neg h2]
  · exact ⟨addUserIfMissing_participants e (some e)
      { s with participants := s.participants ++ [e] }, rfl⟩
  · intro hc
    rcases hc with hc | hc
    · exact hasAt_true_ne_empty e h1 hc
    · rw [h1] at hc
      cases hc

/-- When the trimmed input is already present, `addParticipant` is the
identity on the whole state. -/
theorem addParticipant_dup (s : State) (e : String)
    (he : jsTrim s.participantInput = e) (h : e ∈ s.participants) :
    addParticipant s = s := by
  unfold addParticipant
  rw [he]
  by_cases hC : e = "" ∨ jsHasAt e = false
  · rw [if_pos hC]
  · rw [if_neg hC, if_pos h]

end MeetingFormTsx

namespace Part001

/-- When the trimmed input is a not-yet-present `@`-containing string `e`,
part_001's `addParticipant` appends exactly `e` and clears the input. -/
theorem addParticipant_appends01 (s : State) (e : String)
    (he : jsTrim s.participantInput = e) (h1 : jsHasAt e = true)
    (h2 : e ∉ s.participants) :
    (addParticipant s).participants = s.participants ++ [e]
    ∧ (addParticipant s).participantInput = "" := by
  unfold addParticipant
  rw [he, if_pos ⟨hasAt_true_ne_empty e h1, h1⟩, if_neg h2]
  exact ⟨rfl, rfl⟩

/-- When the trimmed input is already present, part_001's `addParticipant`
is the identity on the whole state. -/
theorem addParticipant_dup01 (s : State) (e : String)
    (he : jsTrim s.participantInput = e) (h : e ∈ s.participants) :
    addParticipant s = s := by
  unfold addParticipant
  rw [he]
  by_cases hC : e ≠ "" ∧ jsHasAt e = true
  · rw [if_pos hC, if_pos h]
  · rw [if_neg hC]

end Part001

namespace Part000

/-- When the trimmed input is a not-yet-present `@`-containing string `e`,
part_000's `addParticipant` appends exactly `e` and clears the input. -/
theorem addParticipant_appends00 (s : State) (e : String)
    (he : jsTrim s.participantInput = e) (h1 : jsHasAt e = true)
    (h2 : e ∉ s.participants) :
    (addParticipant s).participants = s.participants ++ [e]
    ∧ (addParticipant s).participantInput = "" := by
  unfold addParticipant
  rw [he, if_pos ⟨hasAt_true_ne_empty e h1, h1⟩, if_neg h2]
  exact ⟨rfl, rfl⟩

/-- When the trimmed input is already present, part_000's `addParticipant`
is the identity on the whole state. -/
theorem addParticipant_dup00 (s : State) (e : String)
    (he : jsTrim s.participantInput = e) (h : e ∈ s.participants) :
    addParticipant s = s := by
  unfold addParticipant
  rw [he]
  by_cases hC : e ≠ "" ∧ jsHasAt e = true
  · rw [if_pos hC, if_pos h]
  · rw [if_neg hC]

/-- Part_000's `addParticipant` preserves duplicate-freedom. -/
theorem addParticipant_nodup00 (s : State) (h : s.participants.Nodup) :
    (addParticipant s).participants.Nodup := by
  by_cases hC : jsTrim s.participantInput ≠ "" ∧ jsHasAt (jsTrim s.participantInput) = true
  · by_cases hm : jsTrim s.participantInput ∈ s.participants
    · rw [addParticipant_dup00 s _ rfl hm]
      exact h
    · rw [(addParticipant_appends00 s _ rfl hC.2 hm).1]
      exact nodup_append_single h hm
  · unfold addParticipant
    rw [if_neg hC]
    exact h

/-- Part_000's `addParticipant` preserves all-entries-contain-`@`: the one
entry it can append passed the `@` check. -/
theorem addParticipant_hasAt00 (s : State)
    (h : ∀ x ∈ s.participants, jsHasAt x = true) :
    ∀ x ∈ (addParticipant s).participants, jsHasAt x = true := by
  by_cases hC : jsTrim s.participantInput ≠ "" ∧ jsHasAt (jsTrim s.participantInput) = true
  · by_cases hm : jsTrim s.participantInput ∈ s.participants
    · rw [addParticipant_dup00 s _ rfl hm]
      exact h
    · rw [(addParticipant_appends00 s _ rfl hC.2 hm).1]
      intro x hx
      rcases List.mem_append.mp hx with hx | hx
      · exact h x hx
      · have hxe : x = jsTrim s.participantInput := by simpa using hx
        rw [hxe]
        exact hC.2
  · unfold addParticipant
    rw [if_neg hC]
    exact h

/-- Every part_000 user-interface event preserves duplicate-freedom: both
insertion points carry an explicit membership guard. -/
theorem applyOp_nodup00 (dir : List String) (s : State) (op : Op)
    (h : s.participants.Nodup) : ((applyOp dir s op).participants).Nodup := by
  cases op with
  | setParticipantInput t => exact h
  | pressEnter => exact addParticipant_nodup00 s h
  | blurParticipantInput => exact addParticipant_nodup00 s h
  | toggleParticipants => exact h
  | pickParticipant e =>
      simp only [applyOp]
      by_cases hg : s.isParticipantsDropdownOpen ∧ e ∈ dir
      · rw [if_pos hg]
        show (if e ∈ s.participants then s.participants
              else s.participants ++ [e]).Nodup
        by_cases hm : e ∈ s.participants
        · rw [if_pos hm]
          exact h
        · rw [if_neg hm]
          exact nodup_append_single h hm
      · rw [if_neg hg]
        exact h
  | addNewParticipantRow =>
      simp only [applyOp]
      by_cases hg : s.isParticipantsDropdownOpen = true
      · rw [if_pos hg]
        exact addParticipant_nodup00 { s with isChairpersonDropdownOpen := false } h
      · rw [if_neg hg]
        exact h
  | removePart e =>
      exact List.Nodup.filter _ h

/-- Every part_000 user-interface event preserves all-entries-contain-`@`,
provided every directory candidate email offered by the dropdown
contains `@`. -/
theorem applyOp_hasAt00 (dir : List String)
    (hdir : ∀ e ∈ dir, jsHasAt e = true) (s : State) (op : Op)
    (h : ∀ x ∈ s.participants, jsHasAt x = true) :
    ∀ x ∈ (applyOp dir s op).participants, jsHasAt x = true := by
  cases op with
  | setParticipantInput t => exact h
  | pressEnter => exact addParticipant_hasAt00 s h
  | blurParticipantInput => exact addParticipant_hasAt00 s h
  | toggleParticipants => exact h
  | pickParticipant e =>
      simp only [applyOp]
      by_cases hg : s.isParticipantsDropdownOpen ∧ e ∈ dir
      · rw [if_pos hg]
        show ∀ x ∈ (if e ∈ s.participants then s.participants
                    else s.participants ++ [e]), jsHasAt x = true
        by_cases hm : e ∈ s.participants
        · rw [if_pos hm]
          exact h
        · rw [if_neg hm]
          intro x hx
          rcases List.mem_append.mp hx with hx | hx
          · exact h x hx
          · have hxe : x = e := by simpa using hx
            rw [hxe]
            exact hdir e hg.2
      · rw [if_neg hg]
        exact h
  | addNewParticipantRow =>
      simp only [applyOp]
      by_cases hg : s.isParticipantsDropdownOpen = true
      · rw [if_pos hg]
        exact addParticipant_hasAt00 { s with isChairpersonDropdownOpen := false } h
      · rw [if_neg hg]
        exact h
  | removePart e =>
      exact fun x hx => h x (List.mem_filter.mp hx).1

/-- Folding the part_000 event machine preserves duplicate-freedom. -/
theorem foldl_nodup00 (dir : List String) (ops : List Op) :
    ∀ s : State, s.participants.Nodup →
      ((ops.foldl (applyOp dir) s).participants).Nodup := by
  induction ops with
  | nil => intro s h; exact h
  | cons op ops ih =>
      intro s h
      exact ih _ (applyOp_nodup00 dir s op h)

/-- Folding the part_000 event machine preserves all-entries-contain-`@`
when every directory candidate email contains `@`. -/
theorem foldl_hasAt00 (dir : List String)
    (hdir : ∀ e ∈ dir, jsHasAt e = true) (ops : List Op) :
    ∀ s : State, (∀ x ∈ s.participants, jsHasAt x = true) →
      ∀ x ∈ (ops.foldl (applyOp dir) s).participants, jsHasAt x = true := by
  induction ops with
  | nil => intro s h; exact h
  | cons op ops ih =>
      intro s h
      exact ih _ (applyOp_hasAt00 dir hdir s op h)

end Part000

namespace Part001

/-- Part_001's `addParticipant` preserves duplicate-freedom. -/
theorem addParticipant_nodup01 (s : State) (h : s.participants.Nodup) :
    (addParticipant s).participants.Nodup := by
  by_cases hC : jsTrim s.participantInput ≠ "" ∧ jsHasAt (jsTrim s.participantInput) = true
  · by_cases hm : jsTrim s.participantInput ∈ s.participants
    · rw [addParticipant_dup01 s _ rfl hm]
      exact h
    · rw [(addParticipant_appends01 s _ rfl hC.2 hm).1]
      exact nodup_append_single h hm
  · unfold addParticipant
    rw [if_neg hC]
    exact h

/-- Part_001's `addParticipant` preserves all-entries-contain-`@`. -/
theorem addParticipant_hasAt01 (s : State)
    (h : ∀ x ∈ s.participants, jsHasAt x = true) :
    ∀ x ∈ (addParticipant s).participants, jsHasAt x = true := by
  by_cases hC : jsTrim s.participantInput ≠ "" ∧ jsHasAt (jsTrim s.participantInput) = true
  · by_cases hm : jsTrim s.participantInput ∈ s.participants
    · rw [addParticipant_dup01 s _ rfl hm]
      exact h
    · rw [(addParticipant_appends01 s _ rfl hC.2 hm).1]
      intro x hx
      rcases List.mem_append.mp hx with hx | hx
      · exact h x hx
      · have hxe : x = jsTrim s.participantInput := by simpa using hx
        rw [hxe]
        exact hC.2
  · unfold addParticipant
    rw [if_neg hC]
    exact h

/-- The part_001 dropdown insertion event is unreachable: its candidate
rows come from `userDocs`, the hard-coded empty array, so the event is a
no-op on the whole state. -/
theorem applyOp_pick_dead01 (s : State) (u : User) :
    applyOp s (.pickParticipant u) = s := by
  have hnot : ¬(s.isParticipantsOpen ∧ s.isDropdownOpen ∧ u ∈ userDocs) := by
    intro hg
    have hu := hg.2.2
    simp [userDocs] at hu
  simp only [applyOp]
  rw [if_neg hnot]

/-- Every part_001 user-interface event preserves duplicate-freedom: the
only reachable insertion point is `addParticipant`, which carries the
membership guard. -/
theorem applyOp_nodup01 (s : State) (op : Op) (h : s.participants.Nodup) :
    ((applyOp s op).participants).Nodup := by
  cases op with
  | setParticipantInput t => exact h
  | pressEnter => exact addParticipant_nodup01 s h
  | blurParticipantInput => exact addParticipant_nodup01 s h
  | toggleParticipantsSection => exact h
  | toggleDropdown => exact h
  | pickParticipant u =>
      rw [applyOp_pick_dead01 s u]
      exact h
  | addNewParticipantRow =>
      simp only [applyOp]
      by_cases hg : s.isParticipantsOpen ∧ s.isDropdownOpen
      · rw [if_pos hg]
        exact addParticipant_nodup01 { s with isDropdownOpen := false } h
      · rw [if_neg hg]
        exact h
  | removePart e =>
      exact List.Nodup.filter _ h

/-- Every part_001 user-interface event preserves
all-entries-contain-`@`, unconditionally: the unvalidated dropdown
insertion is unreachable. -/
theorem applyOp_hasAt01 (s : State) (op : Op)
    (h : ∀ x ∈ s.participants, jsHasAt x = true) :
    ∀ x ∈ (applyOp s op).participants, jsHasAt x = true := by
  cases op with
  | setParticipantInput t => exact h
  | pressEnter => exact addParticipant_hasAt01 s h
  | blurParticipantInput => exact addParticipant_hasAt01 s h
  | toggleParticipantsSection => exact h
  | toggleDropdown => exact h
  | pickParticipant u =>
      rw [applyOp_pick_dead01 s u]
      exact h
  | addNewParticipantRow =>
      simp only [applyOp]
      by_cases hg : s.isParticipantsOpen ∧ s.isDropdownOpen
      · rw [if_pos hg]
        exact addParticipant_hasAt01 { s with isDropdownOpen := false } h
      · rw [if_neg hg]
        exact h
  | removePart e =>
      exact fun x hx => h x (List.mem_filter.mp hx).1

/-- Folding the part_001 event machine preserves duplicate-freedom. -/
theorem foldl_nodup01 (ops : List Op) :
    ∀ s : State, s.participants.Nodup →
      ((ops.foldl applyOp s).participants).Nodup := by
  induction ops with
  | nil => intro s h; exact h
  | cons op ops ih =>
      intro s h
      exact ih _ (applyOp_nodup01 s op h)

/-- Folding the part_001 event machine preserves
all-entries-contain-`@`. -/
theorem foldl_hasAt01 (ops : List Op) :
    ∀ s : State, (∀ x ∈ s.participants, jsHasAt x = true) →
      ∀ x ∈ (ops.foldl applyOp s).participants, jsHasAt x = true := by
  induction ops with
  | nil => intro s h; exact h
  | cons op ops ih =>
      intro s h
      exact ih _ (applyOp_hasAt01 s op h)

end Part001

namespace MeetingFormTsx

/-- `addParticipant` preserves duplicate-freedom of the participant
list. -/
theorem addParticipant_nodup (s : State) (h : s.participants.Nodup) :
    (addParticipant s).participants.Nodup := by
  by_cases hC : jsTrim s.participantInput = "" ∨ jsHasAt (jsTrim s.participantInput) = false
  · unfold addParticipant
    rw [if_pos hC]
    exact h
  · by_cases hm : jsTrim s.participantInput ∈ s.participants
    · rw [addParticipant_dup s _ rfl hm]
      exact h
    · have hat : jsHasAt (jsTrim s.participantInput) = true := by
        cases hb : jsHasAt (jsTrim s.participantInput)
        · exact absurd (Or.inr hb) hC
        · rfl
      rw [(addParticipant_appends s _ rfl hat hm).1]
      exact nodup_append_single h hm

/-- `addParticipant` either keeps `users` or appends the freshly created
candidate, whose email is the appended participant entry. -/
theorem addParticipant_users_cases (s : State) :
    (addParticipant s).users = s.users ∨
    (addParticipant s).users = s.users
      ++ [⟨freshUUID s.freshCounter, jsTrim s.participantInput,
           some (jsTrim s.participantInput)⟩] := by
  unfold addParticipant
  by_cases hC : jsTrim s.participantInput = "" ∨ jsHasAt (jsTrim s.participantInput) = false
  · rw [if_pos hC]
    exact Or.inl rfl
  · rw [if_neg hC]
    by_cases hm : jsTrim s.participantInput ∈ s.participants
    · rw [if_pos hm]
      exact Or.inl rfl
    · rw [if_neg hm]
      exact addUserIfMissing_users_cases (jsTrim s.participantInput)
        (some (jsTrim s.participantInput))
        { s with participants := s.participants ++ [jsTrim s.participantInput] }

/-- `addUserIfMissing` preserves the email invariant provided the email it
may record contains `@`. -/
theorem addUserIfMissing_emailsOk (n : String) (em : Option String)
    (s : State) (hem : ∀ e, em = some e → jsHasAt e = true)
    (h : emailsOk s) : emailsOk ((addUserIfMissing n em s).2) := by
  constructor
  · intro e he
    rw [addUserIfMissing_participants] at he
    exact h.1 e he
  · rcases addUserIfMissing_users_cases n em s with hc | hc
    · rw [hc]
      exact h.2
    · rw [hc]
      intro u hu e he
      rcases List.mem_append.mp hu with h3 | h3
      · exact h.2 u h3 e he
      · have hu4 : u = ⟨freshUUID s.freshCounter, n, em⟩ := by simpa using h3
        subst hu4
        exact hem e he

/-- `addParticipant` preserves the email invariant: the only entry it can
append (to `participants` and to `users`) is a trimmed input that passed
the `@` check. -/
theorem addParticipant_emailsOk (s : State) (h : emailsOk s) :
    emailsOk (addParticipant s) := by
  by_cases hC : jsTrim s.participantInput = "" ∨ jsHasAt (jsTrim s.participantInput) = false
  · unfold addParticipant
    rw [if_pos hC]
    exact h
  · by_cases hm : jsTrim s.participantInput ∈ s.participants
    · rw [addParticipant_dup s _ rfl hm]
      exact h
    · have hat : jsHasAt (jsTrim s.participantInput) = true := by
        cases hb : jsHasAt (jsTrim s.participantInput)
        · exact absurd (Or.inr hb) hC
        · rfl
      constructor
      · rw [(addParticipant_appends s _ rfl hat hm).1]
        intro x hx
        rcases List.mem_append.mp hx with hx | hx
        · exact h.1 x hx
        · have hxe : x = jsTrim s.participantInput := by simpa using hx
          rw [hxe]
          exact hat
      · rcases addParticipant_users_cases s with hu | hu
        · rw [hu]
          exact h.2
        · rw [hu]
          intro u hu2 e he
          rcases List.mem_append.mp hu2 with h3 | h3
          · exact h.2 u h3 e he
          · have hu4 : u = ⟨freshUUID s.freshCounter, jsTrim s.participantInput,
                some (jsTrim s.participantInput)⟩ := by simpa using h3
            subst hu4
            rw [← Option.some.inj he]
            exact hat

/-- Every user-interface event preserves duplicate-freedom of the
participant list: both insertion points carry an explicit membership
guard. -/
theorem applyOp_nodup (s : State) (op : Op) (h : s.participants.Nodup) :
    (applyOp s op).participants.Nodup := by
  cases op with
  | setParticipantInput t => exact h
  | pressEnter => exact addParticipant_nodup s h
  | pickParticipant u =>
      simp only [applyOp]
      by_cases hg : s.participantsOpen ∧ s.participantsDropdownOpen ∧ u ∈ s.users
      · rw [if_pos hg]
        cases hue : u.email with
        | none => exact h
        | some e =>
            show (if e = "" then s else pickParticipantHandler e s).participants.Nodup
            by_cases he0 : e = ""
            · rw [if_pos he0]
              exact h
            · rw [if_neg he0]
              show (if e ∈ s.participants then s.participants
                    else s.participants ++ [e]).Nodup
              by_cases hm : e ∈ s.participants
              · rw [if_pos hm]
                exact h
              · rw [if_neg hm]
                exact nodup_append_single h hm
      · rw [if_neg hg]
        exact h
  | toggleParticipantsSection => exact h
  | toggleParticipantsDropdown => exact h
  | setHost t => exact h
  | blurHost =>
      show ((addUserIfMissing s.host (some s.host) s).2).participants.Nodup
      rw [addUserIfMissing_participants]
      exact h
  | setChair t => exact h
  | focusChair => exact h
  | pickChair u =>
      simp only [applyOp]
      by_cases hg : s.chairpersonOpen ∧ u ∈ s.users
      · rw [if_pos hg]
        exact h
      · rw [if_neg hg]
        exact h
  | blurChair =>
      show (syncChairperson s).participants.Nodup
      unfold syncChairperson
      by_cases hc : jsTrim s.chairperson = ""
      · rw [if_pos hc]
        exact h
      · rw [if_neg hc]
        show ((addUserIfMissing (jsTrim s.chairperson) none s).2).participants.Nodup
        rw [addUserIfMissing_participants]
        exact h
  | removePart e =>
      exact List.Nodup.filter _ h

/-- Every acceptable user-interface event preserves the email invariant
(`okOp` rules out exactly the host blur with `@`-free host text, the one
event that can record an `@`-free candidate email). -/
theorem applyOp_emailsOk (s : State) (op : Op) (hok : okOp s op = true)
    (h : emailsOk s) : emailsOk (applyOp s op) := by
  cases op with
  | setParticipantInput t => exact h
  | pressEnter => exact addParticipant_emailsOk s h
  | pickParticipant u =>
      simp only [applyOp]
      by_cases hg : s.participantsOpen ∧ s.participantsDropdownOpen ∧ u ∈ s.users
      · rw [if_pos hg]
        cases hue : u.email with
        | none => exact h
        | some e =>
            show emailsOk (if e = "" then s else pickParticipantHandler e s)
            by_cases he0 : e = ""
            · rw [if_pos he0]
              exact h
            · rw [if_neg he0]
              have hat : jsHasAt e = true := h.2 u hg.2.2 e hue
              refine ⟨?_, h.2⟩
              show ∀ x ∈ (if e ∈ s.participants then s.participants
                          else s.participants ++ [e]), jsHasAt x = true
              by_cases hm : e ∈ s.participants
              · rw [if_pos hm]
                exact h.1
              · rw [if_neg hm]
                intro x hx
                rcases List.mem_append.mp hx with hx | hx
                · exact h.1 x hx
                · have hxe : x = e := by simpa using hx
                  rw [hxe]
                  exact hat
      · rw [if_neg hg]
        exact h
  | toggleParticipantsSection => exact h
  | toggleParticipantsDropdown => exact h
  | setHost t => exact h
  | blurHost =>
      exact addUserIfMissing_emailsOk s.host (some s.host) s
        (fun e he => by rw [← Option.some.inj he]; exact hok) h
  | setChair t => exact h
  | focusChair => exact h
  | pickChair u =>
      simp only [applyOp]
      by_cases hg : s.chairpersonOpen ∧ u ∈ s.users
      · rw [if_pos hg]
        exact h
      · rw [if_neg hg]
        exact h
  | blurChair =>
      show emailsOk (syncChairperson s)
      unfold syncChairperson
      by_cases hc : jsTrim s.chairperson = ""
      · rw [if_pos hc]
        exact h
      · rw [if_neg hc]
        exact addUserIfMissing_emailsOk (jsTrim s.chairperson) none s
          (fun e he => Option.noConfusion he) h
  | removePart e =>
      exact ⟨fun x hx => h.1 x (List.mem_filter.mp hx).1, h.2⟩

/-- Folding the event machine preserves duplicate-freedom. -/
theorem foldl_nodup (ops : List Op) :
    ∀ s : State, s.participants.Nodup →
      (ops.foldl applyOp s).participants.Nodup := by
  induction ops with
  | nil => intro s h; exact h
  | cons op ops ih =>
      intro s h
      exact ih _ (applyOp_nodup s op h)

/-- Folding the event machine over an acceptable event sequence preserves
the email invariant. -/
theorem foldl_emailsOk (ops : List Op) :
    ∀ s : State, allOk s ops = true → emailsOk s →
      emailsOk (ops.foldl applyOp s) := by
  induction ops with
  | nil => intro s _ h; exact h
  | cons op ops ih =>
      intro s hall h
      simp only [allOk, Bool.and_eq_true] at hall
      exact ih _ hall.2 (applyOp_emailsOk s op hall.1 h)

end MeetingFormTsx

/-! ## Claims -/

/-- C1 (amended): for the §8 scenario (chairperson "Jane Doe" picked from
the directory with id "u1", host "jane@co.com", participants bob and sam,
date 2024-06-01, slot 09:00–09:30, offset "-300"), the part_000 payload
has `chairperson_id = "u1"`, `participants = "bob@co.com, sam@co.com"`
(comma-space join) and `date = "2024-06-01"`; the meetingForm.tsx payload
agrees on `chairperson_id` and `date` but joins participants with a bare
comma, yielding `"bob@co.com,sam@co.com"`. -/
theorem c1_scenario_payload :
    (Part000.mkMeetingData ctx1 [] part000Scenario).chairperson_id = some "u1"
  ∧ (Part000.mkMeetingData ctx1 [] part000Scenario).participants
      = "bob@co.com, sam@co.com"
  ∧ (Part000.mkMeetingData ctx1 [] part000Scenario).date = "2024-06-01"
  ∧ (MeetingFormTsx.mkPayload ctx1 [] tsxScenario).chairperson_id = "u1"
  ∧ (MeetingFormTsx.mkPayload ctx1 [] tsxScenario).date = "2024-06-01"
  ∧ (MeetingFormTsx.mkPayload ctx1 [] tsxScenario).participants
      = "bob@co.com,sam@co.com" := by
  decide

/-- C1 counterexample: in the meetingForm.tsx revision the scenario payload
does not serialize the participants with the claimed comma-space join. -/
theorem c1_scenario_payload_cex :
    (MeetingFormTsx.mkPayload ctx1 [] tsxScenario).participants
      ≠ "bob@co.com, sam@co.com" := by
  decide

/-- C5: when the trimmed input `e` contains `@` and is not yet present,
`addParticipant` appends exactly one entry equal to `e` at the end of the
participant list (existing entries and their order untouched) and clears
the input buffer; a second call whose trimmed input is the same `e` leaves
the participant list unchanged.  Proved for both cited revisions,
meetingForm.tsx and part_000. -/
theorem c5_addParticipant_appends_idempotent (s : MeetingFormTsx.State)
    (p : Part000.State) (e : String)
    (hse : jsTrim s.participantInput = e) (hpe : jsTrim p.participantInput = e)
    (h1 : jsHasAt e = true)
    (h2s : e ∉ s.participants) (h2p : e ∉ p.participants) :
    ((MeetingFormTsx.addParticipant s).participants = s.participants ++ [e]
     ∧ (MeetingFormTsx.addParticipant s).participantInput = ""
     ∧ ∀ t : MeetingFormTsx.State, jsTrim t.participantInput = e →
         e ∈ t.participants →
         (MeetingFormTsx.addParticipant t).participants = t.participants)
  ∧ ((Part000.addParticipant p).participants = p.participants ++ [e]
     ∧ (Part000.addParticipant p).participantInput = ""
     ∧ ∀ q : Part000.State, jsTrim q.participantInput = e →
         e ∈ q.participants →
         (Part000.addParticipant q).participants = q.participants) := by
  obtain ⟨hp1, hi1⟩ := MeetingFormTsx.addParticipant_appends s e hse h1 h2s
  obtain ⟨hp2, hi2⟩ := Part000.addParticipant_appends00 p e hpe h1 h2p
  refine ⟨⟨hp1, hi1, ?_⟩, ⟨hp2, hi2, ?_⟩⟩
  · intro t ht hmem
    rw [MeetingFormTsx.addParticipant_dup t e ht hmem]
  · intro q hq hmem
    rw [Part000.addParticipant_dup00 q e hq hmem]

/-- C5 witness: the theorem applied at the empty forms of both revisions
with input buffer "bob@co.com". -/
theorem c5_addParticipant_appends_idempotent_witness :
    (jsTrim "bob@co.com" = "bob@co.com")
  ∧ (jsHasAt "bob@co.com" = true)
  ∧ ("bob@co.com" ∉ ([] : List String))
  ∧ (((MeetingFormTsx.addParticipant
        { MeetingFormTsx.init with participantInput := "bob@co.com" }).participants
        = [] ++ ["bob@co.com"]
     ∧ (MeetingFormTsx.addParticipant
        { MeetingFormTsx.init with participantInput := "bob@co.com" }).participantInput = ""
     ∧ ∀ t : MeetingFormTsx.State, jsTrim t.participantInput = "bob@co.com" →
         "bob@co.com" ∈ t.participants →
         (MeetingFormTsx.addParticipant t).participants = t.participants)
    ∧ ((Part000.addParticipant
        { Part000.init with participantInput := "bob@co.com" }).participants
        = [] ++ ["bob@co.com"]
     ∧ (Part000.addParticipant
        { Part000.init with participantInput := "bob@co.com" }).participantInput = ""
     ∧ ∀ q : Part000.State, jsTrim q.participantInput = "bob@co.com" →
         "bob@co.com" ∈ q.participants →
         (Part000.addParticipant q).participants = q.participants)) :=
  ⟨by decide, by decide, by decide,
   c5_addParticipant_appends_idempotent
     { MeetingFormTsx.init with participantInput := "bob@co.com" }
     { Part000.init with participantInput := "bob@co.com" }
     "bob@co.com" (by decide) (by decide) (by decide) (by decide) (by decide)⟩

/-- C6: when the trimmed input is empty or lacks `@`, `addParticipant` is a
silent no-op: the whole component state (participants included) is
unchanged, in both the meetingForm.tsx and part_001 revisions, and being a
total function it raises no error. -/
theorem c6_addParticipant_noop (s : MeetingFormTsx.State) (t : Part001.State)
    (hs : jsTrim s.participantInput = "" ∨ jsHasAt (jsTrim s.participantInput) = false)
    (ht : jsTrim t.participantInput = "" ∨ jsHasAt (jsTrim t.participantInput) = false) :
    MeetingFormTsx.addParticipant s = s ∧ Part001.addParticipant t = t := by
  constructor
  · unfold MeetingFormTsx.addParticipant
    rw [if_pos hs]
  · unfold Part001.addParticipant
    rw [if_neg]
    intro hc
    rcases ht with h | h
    · exact hc.1 h
    · rw [h] at hc
      exact absurd hc.2 (by decide)

/-- C6 witness: the theorem applied at states whose input buffer is the
`@`-free text "bob". -/
theorem c6_addParticipant_noop_witness :
    (jsTrim "bob" = "" ∨ jsHasAt (jsTrim "bob") = false)
  ∧ (MeetingFormTsx.addParticipant
       { MeetingFormTsx.init with participantInput := "bob" }
       = { MeetingFormTsx.init with participantInput := "bob" }
     ∧ Part001.addParticipant
       { Part001.init with participantInput := "bob" }
       = { Part001.init with participantInput := "bob" }) :=
  ⟨by decide,
   c6_addParticipant_noop
     { MeetingFormTsx.init with participantInput := "bob" }
     { Part001.init with participantInput := "bob" }
     (by decide) (by decide)⟩

/-- C9: for an email `e` (in trimmed form, containing `@`) present in the
participant list, `removeParticipant e` followed by `addParticipant` with
input `e` yields a list that contains `e` again, as its last element (not
at its original position); removing an absent email is a no-op on the
whole state and never errors.  Proved for the meetingForm.tsx and part_001
revisions. -/
theorem c9_remove_then_add (e : String) (htrim : jsTrim e = e)
    (hat : jsHasAt e = true)
    (s : MeetingFormTsx.State) (t : Part001.State)
    (_hes : e ∈ s.participants) (_het : e ∈ t.participants) :
    ((MeetingFormTsx.addParticipant
        { MeetingFormTsx.removeParticipant e s with participantInput := e }).participants
      = s.participants.filter (fun p => p != e) ++ [e]
     ∧ e ∈ (MeetingFormTsx.addParticipant
        { MeetingFormTsx.removeParticipant e s with participantInput := e }).participants
     ∧ ((MeetingFormTsx.addParticipant
        { MeetingFormTsx.removeParticipant e s with participantInput := e }).participants).getLast?
        = some e)
  ∧ ((Part001.addParticipant
        { Part001.removeParticipant e t with participantInput := e }).participants
      = t.participants.filter (fun p => p != e) ++ [e]
     ∧ ((Part001.addParticipant
        { Part001.removeParticipant e t with participantInput := e }).participants).getLast?
        = some e)
  ∧ (∀ s2 : MeetingFormTsx.State, e ∉ s2.participants →
        MeetingFormTsx.removeParticipant e s2 = s2)
  ∧ (∀ t2 : Part001.State, e ∉ t2.participants →
        Part001.removeParticipant e t2 = t2) := by
  have hs := MeetingFormTsx.addParticipant_appends
    { MeetingFormTsx.removeParticipant e s with participantInput := e } e
    htrim hat (not_mem_filter_ne s.participants e)
  have ht := Part001.addParticipant_appends01
    { Part001.removeParticipant e t with participantInput := e } e
    htrim hat (not_mem_filter_ne t.participants e)
  refine ⟨⟨hs.1, ?_, ?_⟩, ⟨ht.1, ?_⟩, ?_, ?_⟩
  · rw [hs.1]
    simp
  · rw [hs.1]
    simp
  · rw [ht.1]
    simp
  · intro s2 h2
    unfold MeetingFormTsx.removeParticipant
    rw [filter_ne_of_not_mem s2.participants e h2]
  · intro t2 h2
    unfold Part001.removeParticipant
    rw [filter_ne_of_not_mem t2.participants e h2]

/-- C9 witness: the theorem applied at concrete two-entry participant
lists. -/
theorem c9_remove_then_add_witness :
    (jsTrim "x@y.co" = "x@y.co")
  ∧ (jsHasAt "x@y.co" = true)
  ∧ ("x@y.co" ∈ (["x@y.co", "a@b.co"] : List String))
  ∧ ((MeetingFormTsx.addParticipant
        { MeetingFormTsx.removeParticipant "x@y.co"
            { MeetingFormTsx.init with participants := ["x@y.co", "a@b.co"] } with
            participantInput := "x@y.co" }).participants
      = ["a@b.co", "x@y.co"]) :=
  ⟨by decide, by decide, by decide, by
    have h := c9_remove_then_add "x@y.co" (by decide) (by decide)
      { MeetingFormTsx.init with participants := ["x@y.co", "a@b.co"] }
      { Part001.init with participants := ["x@y.co", "a@b.co"] }
      (by decide) (by decide)
    rw [h.1.1]
    decide⟩

/-- C7 (amended): after every sequence of user-interface events, in every
revision, the participants list contains no duplicate entries:
meetingForm.tsx and part_000 guard both insertion points with a membership
check, while part_001's dropdown insertion handler appends with no such
check but is unreachable (its candidate rows come from `userDocs`, the
hard-coded empty array), so over reachable part_001 traces only the
guarded `addParticipant` inserts.  The all-entries-contain-`@` half holds
unconditionally in part_001, holds in part_000 under the assumption that
every directory candidate email offered by the dropdown contains `@`, and
holds in meetingForm.tsx under the assumption that every host-field blur
happens while the host text contains `@` — without those assumptions the
dropdown insertion paths do not validate `@` (see the counterexample). -/
theorem c7_participants_invariant :
    (∀ ops : List MeetingFormTsx.Op,
        (MeetingFormTsx.runOps ops).participants.Nodup
      ∧ (MeetingFormTsx.allOk MeetingFormTsx.init ops = true →
          ∀ e ∈ (MeetingFormTsx.runOps ops).participants, jsHasAt e = true))
  ∧ (∀ (dir : List String) (ops : List Part000.Op),
        (Part000.runOps dir ops).participants.Nodup
      ∧ ((∀ e ∈ dir, jsHasAt e = true) →
          ∀ e ∈ (Part000.runOps dir ops).participants, jsHasAt e = true))
  ∧ (∀ ops : List Part001.Op,
        (Part001.runOps ops).participants.Nodup
      ∧ ∀ e ∈ (Part001.runOps ops).participants, jsHasAt e = true)
  ∧ (∀ (s : Part001.State) (e : String),
        (Part001.pickParticipantHandler e s).participants
          = s.participants ++ [e])
  ∧ (∀ (s : Part001.State) (u : User),
        Part001.applyOp s (.pickParticipant u) = s) := by
  refine ⟨?_, ?_, ?_, ?_, ?_⟩
  · intro ops
    constructor
    · exact MeetingFormTsx.foldl_nodup ops MeetingFormTsx.init List.nodup_nil
    · intro hall
      exact (MeetingFormTsx.foldl_emailsOk ops MeetingFormTsx.init hall
        ⟨fun e he => absurd he (List.not_mem_nil e),
         fun u hu => absurd hu (List.not_mem_nil u)⟩).1
  · intro dir ops
    constructor
    · exact Part000.foldl_nodup00 dir ops Part000.init List.nodup_nil
    · intro hdir
      exact Part000.foldl_hasAt00 dir hdir ops Part000.init
        (fun e he => absurd he (List.not_mem_nil e))
  · intro ops
    exact ⟨Part001.foldl_nodup01 ops Part001.init List.nodup_nil,
           Part001.foldl_hasAt01 ops Part001.init
             (fun e he => absurd he (List.not_mem_nil e))⟩
  · intro s e
    rfl
  · intro s u
    exact Part001.applyOp_pick_dead01 s u

/-- C7 witness: the theorem applied to concrete traces — typing "a@b.co"
and pressing Enter in meetingForm.tsx and part_001, and picking the
directory candidate "c@d.co" from the opened dropdown in part_000. -/
theorem c7_participants_invariant_witness :
    (MeetingFormTsx.runOps
        [.setParticipantInput "a@b.co", .pressEnter]).participants.Nodup
  ∧ (MeetingFormTsx.allOk MeetingFormTsx.init
        [.setParticipantInput "a@b.co", .pressEnter] = true)
  ∧ (∀ e ∈ (MeetingFormTsx.runOps
        [.setParticipantInput "a@b.co", .pressEnter]).participants,
        jsHasAt e = true)
  ∧ (∀ e ∈ (["c@d.co"] : List String), jsHasAt e = true)
  ∧ (Part000.runOps ["c@d.co"]
        [.toggleParticipants, .pickParticipant "c@d.co"]).participants.Nodup
  ∧ (∀ e ∈ (Part000.runOps ["c@d.co"]
        [.toggleParticipants, .pickParticipant "c@d.co"]).participants,
        jsHasAt e = true)
  ∧ (Part001.runOps
        [.setParticipantInput "a@b.co", .pressEnter]).participants.Nodup :=
  ⟨(c7_participants_invariant.1 [.setParticipantInput "a@b.co", .pressEnter]).1,
   by decide,
   (c7_participants_invariant.1 [.setParticipantInput "a@b.co", .pressEnter]).2
     (by decide),
   by decide,
   (c7_participants_invariant.2.1 ["c@d.co"]
     [.toggleParticipants, .pickParticipant "c@d.co"]).1,
   (c7_participants_invariant.2.1 ["c@d.co"]
     [.toggleParticipants, .pickParticipant "c@d.co"]).2 (by decide),
   (c7_participants_invariant.2.2.1
     [.setParticipantInput "a@b.co", .pressEnter]).1⟩

/-- C7 counterexample: blurring the host field while it holds the
`@`-free text "foo" creates a local candidate with email "foo", and picking
that candidate from the participants dropdown inserts "foo" into the
participants list — an entry that does not contain `@`, contradicting the
claimed invariant. -/
theorem c7_participants_invariant_cex :
    (MeetingFormTsx.runOps MeetingFormTsx.badTrace).participants = ["foo"]
  ∧ jsHasAt "foo" = false := by
  decide

/-- C8 (amended): in every revision, picking a chairperson candidate sets
the chairperson name and the chairperson id together in the one handler
and closes the dropdown; but only the meetingForm.tsx revision clears
`chairpersonId` on a subsequent edit of the chairperson text (its
`onChange` resets it to the empty string).  In part_000 and part_001 the
chairperson input is wired with `{...field}` only, so editing leaves both
the local `chairpersonId` and the form's `chairperson_id` untouched. -/
theorem c8_chairperson_selection :
    (∀ (s : MeetingFormTsx.State) (u : User) (t : String),
        (MeetingFormTsx.pickChairHandler u s).chairperson = u.name
      ∧ (MeetingFormTsx.pickChairHandler u s).chairpersonId = u.id
      ∧ (MeetingFormTsx.pickChairHandler u s).chairpersonOpen = false
      ∧ (MeetingFormTsx.chairOnChange t s).chairpersonId = ""
      ∧ (MeetingFormTsx.chairOnChange t s).chairperson = t)
  ∧ (∀ (s : Part000.State) (u : Part000.ChairEntry) (t : String),
        (Part000.handleSelectChairperson u s).chairperson = u.name
      ∧ (Part000.handleSelectChairperson u s).chairpersonId = some u.id
      ∧ (Part000.handleSelectChairperson u s).chairperson_id = u.id
      ∧ (Part000.handleSelectChairperson u s).isChairpersonDropdownOpen = false
      ∧ (Part000.chairOnChange t s).chairpersonId = s.chairpersonId
      ∧ (Part000.chairOnChange t s).chairperson_id = s.chairperson_id)
  ∧ (∀ (s : Part001.State) (u : User) (t : String),
        (Part001.handleSelectChairperson u s).chairperson = u.name
      ∧ (Part001.handleSelectChairperson u s).chairpersonId = some u.id
      ∧ (Part001.handleSelectChairperson u s).chairperson_id = u.id
      ∧ (Part001.handleSelectChairperson u s).isDropdownOpen = false
      ∧ (Part001.chairOnChange t s).chairpersonId = s.chairpersonId
      ∧ (Part001.chairOnChange t s).chairperson_id = s.chairperson_id) :=
  ⟨fun _ _ _ => ⟨rfl, rfl, rfl, rfl, rfl⟩,
   fun _ _ _ => ⟨rfl, rfl, rfl, rfl, rfl, rfl⟩,
   fun _ _ _ => ⟨rfl, rfl, rfl, rfl, rfl, rfl⟩⟩

/-- C8 counterexample: in the part_001 revision, after picking the
candidate `u1`/"Jane Doe" and then editing the chairperson text to "Jan",
the local `chairpersonId` still holds `some "u1"` — the claimed clearing on
edit does not happen. -/
theorem c8_chairperson_selection_cex :
    (Part001.chairOnChange "Jan"
      (Part001.handleSelectChairperson ⟨"u1", "Jane Doe", none⟩ Part001.init)).chairpersonId
      = some "u1"
  ∧ (some "u1" : Option String) ≠ none := by
  decide

/-- C3 (amended): in the part_000 and part_001 revisions a BookingService
rejection with an extractable non-empty message shows exactly that message,
and a rejection with no extractable message shows the fixed non-blank
fallback "Something went wrong"; in the meetingForm.tsx revision every
rejection instead shows the fixed non-blank string
"Unable to schedule meeting" (the extracted message is never used).  In all
three revisions the rejection handler performs no state mutation, so the
form state is unchanged and the user may retry. -/
theorem c3_rejection_toast :
    (∀ (s : Part000.State) (m : String), m ≠ "" →
        Part000.settle s (.err ⟨some m⟩) = (s, .toast m))
  ∧ (∀ (s : Part001.State) (m : String), m ≠ "" →
        Part001.settle s (.err ⟨some m⟩) = (s, .toast m))
  ∧ (∀ s : Part000.State, Part000.settle s (.err ⟨none⟩)
        = (s, .toast "Something went wrong"))
  ∧ (∀ s : Part001.State, Part001.settle s (.err ⟨none⟩)
        = (s, .toast "Something went wrong"))
  ∧ ("Something went wrong" ≠ "")
  ∧ (∀ (s : MeetingFormTsx.State) (e : ServiceError),
        MeetingFormTsx.settle s (.err e)
          = (s, .toast "Unable to schedule meeting"))
  ∧ ("Unable to schedule meeting" ≠ "") := by
  refine ⟨?_, ?_, ?_, ?_, by decide, ?_, by decide⟩
  · intro s m hm
    simp [Part000.settle, parseFrappeErrorMsg, hm]
  · intro s m hm
    simp [Part001.settle, parseFrappeErrorMsg, hm]
  · intro s
    simp [Part000.settle, parseFrappeErrorMsg]
  · intro s
    simp [Part001.settle, parseFrappeErrorMsg]
  · intro s e
    rfl

/-- C3 witness: the theorem applied to the rejection carrying the message
"Slot no longer available", in part_000 and part_001. -/
theorem c3_rejection_toast_witness :
    ("Slot no longer available" ≠ "")
  ∧ Part000.settle Part000.init (.err ⟨some "Slot no longer available"⟩)
      = (Part000.init, .toast "Slot no longer available")
  ∧ Part001.settle Part001.init (.err ⟨some "Slot no longer available"⟩)
      = (Part001.init, .toast "Slot no longer available") :=
  ⟨by decide,
   c3_rejection_toast.1 Part000.init "Slot no longer available" (by decide),
   c3_rejection_toast.2.1 Part001.init "Slot no longer available" (by decide)⟩

/-- C3 counterexample: in the meetingForm.tsx revision a rejection carrying
the extractable message "Slot no longer available" is shown as the fixed
string "Unable to schedule meeting", not as the extracted message. -/
theorem c3_rejection_toast_cex :
    (MeetingFormTsx.settle MeetingFormTsx.init
        (.err ⟨some "Slot no longer available"⟩)).2
      = .toast "Unable to schedule meeting"
  ∧ Effect.toast "Unable to schedule meeting"
      ≠ .toast "Slot no longer available" := by
  decide

/-- C2: whenever the host field fails email-format validation, the submit
pipeline stops at the resolver (`invalid`, which is how inline field errors
are surfaced) and no BookingService request is issued — for any
email-format predicate, in both the meetingForm.tsx and part_001
revisions. -/
theorem c2_invalid_host_blocks_booking (emailOk : String → Bool)
    (ctx : SubmitContext) (extra : List (String × String))
    (s : MeetingFormTsx.State) (t : Part001.State)
    (hs : emailOk s.host = false) (ht : emailOk t.host = false) :
    MeetingFormTsx.submitPipeline emailOk ctx extra s = .invalid
  ∧ MeetingFormTsx.callsBooking
      (MeetingFormTsx.submitPipeline emailOk ctx extra s) = false
  ∧ Part001.submitPipeline emailOk ctx extra t = .invalid
  ∧ Part001.callsBooking (Part001.submitPipeline emailOk ctx extra t) = false := by
  have hs1 : MeetingFormTsx.schemaCheck emailOk s = false := by
    simp [MeetingFormTsx.schemaCheck, hs]
  have ht1 : Part001.schemaCheck emailOk t = false := by
    simp [Part001.schemaCheck, ht]
  have hs2 : MeetingFormTsx.submitPipeline emailOk ctx extra s = .invalid := by
    simp [MeetingFormTsx.submitPipeline, hs1]
  have ht2 : Part001.submitPipeline emailOk ctx extra t = .invalid := by
    simp [Part001.submitPipeline, ht1]
  exact ⟨hs2, by rw [hs2]; rfl, ht2, by rw [ht2]; rfl⟩

/-- C2 witness: the theorem applied with the `@`-membership email check to
states whose host field holds the invalid text "nope". -/
theorem c2_invalid_host_blocks_booking_witness :
    (jsHasAt ({ MeetingFormTsx.init with host := "nope" } : MeetingFormTsx.State).host = false)
  ∧ (MeetingFormTsx.submitPipeline jsHasAt ctx1 []
        { MeetingFormTsx.init with host := "nope" } = .invalid
     ∧ MeetingFormTsx.callsBooking
        (MeetingFormTsx.submitPipeline jsHasAt ctx1 []
          { MeetingFormTsx.init with host := "nope" }) = false
     ∧ Part001.submitPipeline jsHasAt ctx1 []
        { Part001.init with host := "nope" } = .invalid
     ∧ Part001.callsBooking
        (Part001.submitPipeline jsHasAt ctx1 []
          { Part001.init with host := "nope" }) = false) :=
  ⟨by decide,
   c2_invalid_host_blocks_booking jsHasAt ctx1 []
     { MeetingFormTsx.init with host := "nope" }
     { Part001.init with host := "nope" }
     (by decide) (by decide)⟩

/-- C10: in the meetingForm.tsx revision, for every form state that passes
the resolver, an empty `chairpersonId` makes `onSubmit` toast the error
"Please select a valid chairperson" and return without calling
BookingService and without touching the form state (the state component of
the outcome is the incoming state); BookingService is invoked, with the
built payload, exactly when `chairpersonId` is non-empty. -/
theorem c10_chairperson_guard (emailOk : String → Bool) (ctx : SubmitContext)
    (extra : List (String × String)) (s : MeetingFormTsx.State)
    (hvalid : MeetingFormTsx.schemaCheck emailOk s = true) :
    (s.chairpersonId = "" →
        MeetingFormTsx.submitPipeline emailOk ctx extra s
          = .submitted (s, .noCall "Please select a valid chairperson")
      ∧ MeetingFormTsx.callsBooking
          (MeetingFormTsx.submitPipeline emailOk ctx extra s) = false)
  ∧ (s.chairpersonId ≠ "" →
        MeetingFormTsx.submitPipeline emailOk ctx extra s
          = .submitted (s, .call (MeetingFormTsx.mkPayload ctx extra s))) := by
  constructor
  · intro hid
    have h1 : MeetingFormTsx.submitPipeline emailOk ctx extra s
        = .submitted (s, .noCall "Please select a valid chairperson") := by
      unfold MeetingFormTsx.submitPipeline MeetingFormTsx.onSubmit
      rw [if_pos hvalid, if_pos hid]
    exact ⟨h1, by rw [h1]; rfl⟩
  · intro hid
    unfold MeetingFormTsx.submitPipeline MeetingFormTsx.onSubmit
    rw [if_pos hvalid, if_neg hid]

/-- C10 witness: the theorem applied with the `@`-membership email check to
a schema-valid state whose `chairpersonId` is empty. -/
theorem c10_chairperson_guard_witness :
    (MeetingFormTsx.schemaCheck jsHasAt
        { MeetingFormTsx.init with chairperson := "Jane Doe", host := "jane@co.com" } = true)
  ∧ (({ MeetingFormTsx.init with chairperson := "Jane Doe", host := "jane@co.com" }
        : MeetingFormTsx.State).chairpersonId = "")
  ∧ (MeetingFormTsx.submitPipeline jsHasAt ctx1 []
        { MeetingFormTsx.init with chairperson := "Jane Doe", host := "jane@co.com" }
      = .submitted
          ({ MeetingFormTsx.init with chairperson := "Jane Doe", host := "jane@co.com" },
           .noCall "Please select a valid chairperson")) :=
  ⟨by decide, by decide,
   ((c10_chairperson_guard jsHasAt ctx1 []
      { MeetingFormTsx.init with chairperson := "Jane Doe", host := "jane@co.com" }
      (by decide)).1 (by decide)).1⟩

/-- One step of the loading model preserves the loading-flag invariant. -/
theorem stepEv_goodAsync (s : AsyncModel.AsyncState) (e : AsyncModel.Ev)
    (h : AsyncModel.goodAsync s) : AsyncModel.goodAsync (AsyncModel.stepEv s e) := by
  unfold AsyncModel.goodAsync at *
  cases e with
  | submitClick r =>
      cases hb : s.loading with
      | true =>
          rw [hb] at h
          simp [AsyncModel.stepEv, hb]
          simpa using h
      | false =>
          rw [hb] at h
          simp at h
          cases r with
          | true =>
              simp [AsyncModel.stepEv, hb]
              exact h
          | false =>
              simp [AsyncModel.stepEv, hb]
              simpa using h
  | settleCall =>
      by_cases h0 : s.inFlight = 0
      · simp [AsyncModel.stepEv, h0]
        rw [h0] at h
        simpa using h
      · simp [AsyncModel.stepEv, h0]
        cases hb : s.loading
        · rw [hb] at h
          simp at h
          exact absurd h h0
        · rw [hb] at h
          simp at h
          omega

/-- Folding the loading model over any event list preserves the invariant. -/
theorem foldl_goodAsync (evs : List AsyncModel.Ev) :
    ∀ s : AsyncModel.AsyncState, AsyncModel.goodAsync s →
      AsyncModel.goodAsync (evs.foldl AsyncModel.stepEv s) := by
  induction evs with
  | nil => intro s h; exact h
  | cons e evs ih =>
      intro s h
      exact ih _ (stepEv_goodAsync s e h)

/-- C4: over every sequence of submit-side events, at most one
BookingService call is in flight (exactly one while `loading` holds), and a
click on the submit control while `loading` is true is ignored — the
control is rendered with `disabled={loading}` in every revision, so the
state is unchanged and no further call starts. -/
theorem c4_single_inflight_call (evs : List AsyncModel.Ev) :
    (AsyncModel.runEvents evs).inFlight ≤ 1
  ∧ ((AsyncModel.runEvents evs).inFlight
      = if (AsyncModel.runEvents evs).loading then 1 else 0)
  ∧ ∀ (b : Bool) (s : AsyncModel.AsyncState), s.loading = true →
      AsyncModel.stepEv s (.submitClick b) = s := by
  have hg : AsyncModel.goodAsync (AsyncModel.runEvents evs) :=
    foldl_goodAsync evs AsyncModel.initAsync (by rfl)
  refine ⟨?_, hg, ?_⟩
  · rw [AsyncModel.goodAsync] at hg
    rw [hg]
    by_cases hb : (AsyncModel.runEvents evs).loading = true
    · simp [hb]
    · simp [hb]
  · intro b s h
    simp only [AsyncModel.stepEv]
    rw [if_pos h]

/-- C4 witness: the claim theorem applied to a concrete double-click trace
and to a concrete loading state. -/
theorem c4_single_inflight_call_witness :
    (AsyncModel.runEvents [.submitClick true, .submitClick true]).inFlight ≤ 1
  ∧ ((⟨true, 1⟩ : AsyncModel.AsyncState).loading = true)
  ∧ AsyncModel.stepEv ⟨true, 1⟩ (.submitClick true) = ⟨true, 1⟩ :=
  ⟨(c4_single_inflight_call [.submitClick true, .submitClick true]).1, rfl,
   (c4_single_inflight_call []).2.2 true ⟨true, 1⟩ rfl⟩

end FrappeAppointment
